import Mathlib

/-!
Verification of the Worker node (walkoff/multiprocessedexecutor/worker.py)
against its natural-language specification.

The Python module is shallowly embedded below.  External effects (the cache
queue, NaCl decryption, the execution database, the results socket, the case
logger, the workflow interpreter) are passed in as explicit oracles, so every
embedded function is a pure, executable Lean definition whose control flow
mirrors the Python source line by line.  Python exceptions are modelled with
`Except`; a Python `dict` is modelled as an association list with Python
assignment/pop semantics.
-/

/-- A workflow object as stored in the registry `Worker.workflows`.  Only the
fields the worker itself reads are modelled: the database id and the
execution id (`workflow._execution_id`, read back by `get_execution_id`). -/
structure Wf where
  workflowId : Nat
  executionId : Nat
deriving DecidableEq, Repr

/-- The registry `self.workflows`: a Python dict keyed by the pool thread
name (`threading.current_thread().name`), holding workflow objects. -/
abbrev Registry := List (String × Wf)

/-- Python dict assignment `d[k] = v`: replace the entry if the key is
present, otherwise append a new entry (insertion order preserved). -/
def dictSet : Registry → String → Wf → Registry
  | [], k, v => [(k, v)]
  | p :: rest, k, v => if p.1 = k then (k, v) :: rest else p :: dictSet rest k v

/-- Python dict removal `d.pop(k)` as it is used in the source: every call
site pops a key the same thread inserted, so we model the removal effect. -/
def dictRemove (d : Registry) (k : String) : Registry :=
  d.filter (fun p => !(p.1 == k))

/-- The key view of the registry (the pool thread names). -/
def keys (d : Registry) : List String := d.map (fun p => p.1)

/-- The execution ids of the live registry entries
(`workflow.get_execution_id()` of each value). -/
def execIds (d : Registry) : List Nat := d.map (fun p => p.2.executionId)

/-! ### C1 — request intake (`WorkflowReceiver.receive_workflows`)

The Python generator pops frames from the request queue and calls
`box.decrypt(received_message)` with no exception handler: a frame that
fails authenticated decryption raises `nacl.exceptions.CryptoError`, which
propagates out of the generator and ends it.  Frames and decoded requests
are opaque and represented by `Nat`; the NaCl box is the oracle
`decrypt : Nat → Option Nat` (`none` = authentication failure). -/

/-- Result of running the intake generator over a finite batch of frames:
either every frame was processed (`ok` with the yielded requests), or
decryption raised and the generator died after yielding `yielded`. -/
inductive IntakeOutcome where
  | ok (yielded : List Nat)
  | cryptoError (yielded : List Nat)
deriving DecidableEq, Repr

/-- `WorkflowReceiver.receive_workflows`, lines 299-319: pop a frame,
`box.decrypt` it (no try/except — failure raises out of the loop), parse,
yield the request. -/
def receive_workflows (decrypt : Nat → Option Nat) : List Nat → IntakeOutcome
  | [] => IntakeOutcome.ok []
  | f :: fs =>
    match decrypt f with
    | none => IntakeOutcome.cryptoError []
    | some m =>
      match receive_workflows decrypt fs with
      | IntakeOutcome.ok rs => IntakeOutcome.ok (m :: rs)
      | IntakeOutcome.cryptoError rs => IntakeOutcome.cryptoError (m :: rs)

/-! ### C2 / C5 — the dispatch body (`Worker.execute_workflow_worker`)

Lines 421-445.  Oracles: `db` is the execution-database query
`session.query(Workflow).filter_by(id=workflow_id).first()` (`none` = no
row, i.e. Python `None`); `saved` tells whether a `SavedWorkflow` row
exists for the execution id; `executeRaises` tells whether
`workflow.execute` raises (pause and abort make `execute` return
normally, so they are the `false` case). -/

/-- A Python exception escaping the dispatch body. -/
inductive PyError where
  | attributeError
  | interpreterFailure
deriving DecidableEq, Repr

/-- Observed outcome of one dispatch: the final registry, how many times
the task inserted into the registry (Bind) and removed from it (Release),
and whether it returned or raised. -/
structure DispatchOutcome where
  registry : Registry
  binds : Nat
  releases : Nat
  outcome : Except PyError Unit

/-- `Worker.execute_workflow_worker`, lines 421-445, run on pool thread
`threadName` against registry `d`:

* `workflow = session.query(Workflow).filter_by(id=workflow_id).first()`
  yields Python `None` when the id is unknown, and the next line
  `workflow._execution_id = workflow_execution_id` then raises
  `AttributeError` — there is no not-found check, no aborted-workflow
  event, and nothing was bound;
* on `resume`, a missing `SavedWorkflow` row makes
  `saved_state.accumulator` raise `AttributeError` likewise;
* otherwise the entry is bound (`self.workflows[thread_name] = workflow`),
  `workflow.execute(...)` runs, and only after a normal return is the
  entry popped — the pop is NOT in a `finally`, so a raising `execute`
  skips it. -/
def execute_workflow_worker (db : Nat → Option Wf) (saved : Nat → Bool)
    (threadName : String) (workflowId executionId : Nat)
    (resume : Bool) (executeRaises : Bool) (d : Registry) : DispatchOutcome :=
  match db workflowId with
  | none => ⟨d, 0, 0, Except.error PyError.attributeError⟩
  | some w =>
    if resume && !(saved executionId) then
      ⟨d, 0, 0, Except.error PyError.attributeError⟩
    else
      let d1 := dictSet d threadName { w with executionId := executionId }
      if executeRaises then
        ⟨d1, 1, 0, Except.error PyError.interpreterFailure⟩
      else
        ⟨dictRemove d1 threadName, 1, 1, Except.ok ()⟩

/-! ### C4 — the signal bridge sink (`WorkflowResultsHandler.handle_event`)

Lines 172-191.  The body is straight-line code with no exception handler:
snapshot persistence (for `TriggerActionAwaitingData` / `WorkflowPaused`),
then protobuf conversion, then the case-logger append, then
`results_sock.send`.  The three failure oracles say whether each effect
raises. -/

/-- The execution events the sink branches on. -/
inductive WEvent where
  | triggerActionAwaitingData
  | workflowPaused
  | consoleLog
  | otherEvent
deriving DecidableEq, Repr

/-- What one `handle_event` call observably did. -/
structure HandleEventOutcome where
  snapshotCommitted : Bool
  caseLogged : Bool
  sent : Bool
  raisedToCaller : Bool
deriving DecidableEq, Repr

/-- The tail of `handle_event` after the snapshot branch: protobuf
conversion, `case_logger.log`, `results_sock.send` — each raising
exception propagates to the caller and skips the rest. -/
def handle_event_tail (snapshotDone : Bool) (caseLogFails sendFails : Bool) :
    HandleEventOutcome :=
  if caseLogFails then ⟨snapshotDone, false, false, true⟩
  else if sendFails then ⟨snapshotDone, true, false, true⟩
  else ⟨snapshotDone, true, true, false⟩

/-- `WorkflowResultsHandler.handle_event`, lines 172-191.  For the two
snapshot events a DB failure raises before anything is sent; there is no
try/except anywhere in the body. -/
def handle_event (event : WEvent) (dbFails caseLogFails sendFails : Bool) :
    HandleEventOutcome :=
  if event = WEvent.triggerActionAwaitingData ∨ event = WEvent.workflowPaused then
    if dbFails then ⟨false, false, false, true⟩
    else handle_event_tail true caseLogFails sendFails
  else handle_event_tail false caseLogFails sendFails

/-! ### C6 — `additional_data` on workflow and action packets

`convert_workflow_to_proto` (lines 67-72) and `convert_action_to_proto`
(lines 100-107) both guard the assignment with the literal-string test
`if 'data' is not None:`, which is always true; the variable `data`
(defaulting to Python `None` when no `data` keyword was supplied, see
`convert_to_protobuf` line 48) is then always `json.dumps`-ed into the
field. -/

/-- The Python values relevant to the `data` keyword argument. -/
inductive Py where
  | pynone
  | pystr (s : String)
  | pyint (n : Int)
deriving DecidableEq, Repr

/-- `json.dumps` on the modelled values (`json.dumps(None) == "null"`). -/
def jsonDumps : Py → String
  | Py.pynone => "null"
  | Py.pystr s => "\"" ++ s ++ "\""
  | Py.pyint n => toString n

/-- Python `x is None` on the modelled values. -/
def pyIsNone : Py → Bool
  | Py.pynone => true
  | _ => false

/-- `data = kwargs['data'] if 'data' in kwargs else None`
(`convert_to_protobuf`, line 48): an unsupplied keyword becomes `None`. -/
def kwargs_data (supplied : Option Py) : Py := supplied.getD Py.pynone

/-- The `additional_data` field (`none` = left unset on the wire) produced
by `convert_workflow_to_proto`, lines 70-71: the guard tests the string
literal, not the variable. -/
def convert_workflow_to_proto_additional_data (data : Py) : Option String :=
  if pyIsNone (Py.pystr "data") then none else some (jsonDumps data)

/-- The `additional_data` field produced by `convert_action_to_proto`,
lines 103-104 — the same literal-string guard. -/
def convert_action_to_proto_additional_data (data : Py) : Option String :=
  if pyIsNone (Py.pystr "data") then none else some (jsonDumps data)

/-! ## Theorems for the evaluation-style claims -/

/-- C1: the claim says any subset of undecryptable frames is counted,
dropped and skipped, the intake never terminating and yielding one request
per valid frame.  On the batch `[0, 1, 2]` in which only frame `1` fails
authentication, the source instead raises `CryptoError` out of the
generator after yielding a single request: the second valid frame is never
seen and the intake loop is dead. -/
theorem c1_poisoned_frame_kills_intake :
    receive_workflows (fun f => if f = 1 then none else some f) [0, 1, 2]
      = IntakeOutcome.cryptoError [0] := by
  rfl

/-- C2: the claim says every Bind is matched by a Release on every exit
path, including a raising `workflow.execute`.  Evaluating the dispatch
body with an interpreter that raises: the entry is bound once, never
released, and stays in the registry after the task dies. -/
theorem c2_bind_without_release_on_raise :
    (execute_workflow_worker (fun _ => some ⟨3, 0⟩) (fun _ => true)
        "t0" 3 9 false true []).binds = 1 ∧
    (execute_workflow_worker (fun _ => some ⟨3, 0⟩) (fun _ => true)
        "t0" 3 9 false true []).releases = 0 ∧
    (execute_workflow_worker (fun _ => some ⟨3, 0⟩) (fun _ => true)
        "t0" 3 9 false true []).registry = [("t0", ⟨3, 9⟩)] := by
  exact ⟨rfl, rfl, rfl⟩

/-- C5: the claim says an unknown `workflow_id` makes the dispatch body
emit an aborted-workflow packet, release the slot and return without
raising.  Evaluating the dispatch body on an empty execution database: the
query returns Python `None`, the attribute assignment on line 426 raises
`AttributeError`, and (as the source contains no event emission on this
path at all) no packet is produced; the task dies instead of returning. -/
theorem c5_not_found_raises_attribute_error :
    (execute_workflow_worker (fun _ => none) (fun _ => true)
        "t0" 3 9 false false []).outcome = Except.error PyError.attributeError ∧
    (execute_workflow_worker (fun _ => none) (fun _ => true)
        "t0" 3 9 false false []).binds = 0 := by
  exact ⟨rfl, rfl⟩

/-- C4: the claim says snapshot / case-log failures must not prevent the
results send and that a send failure is swallowed.  Evaluating
`handle_event`: a DB failure on `WorkflowPaused` raises before anything is
sent; a case-log failure raises before the send; a send failure raises
back into the caller (the workflow interpreter) instead of being
swallowed. -/
theorem c4_event_failures_propagate :
    handle_event WEvent.workflowPaused true false false
      = ⟨false, false, false, true⟩ ∧
    handle_event WEvent.otherEvent false true false
      = ⟨false, false, false, true⟩ ∧
    handle_event WEvent.otherEvent false false true
      = ⟨false, true, false, true⟩ := by
  exact ⟨rfl, rfl, rfl⟩

/-- C6: the claim says `additional_data` is set iff a `data` keyword was
supplied.  Because the source tests the string literal `'data'` rather
than the variable, an event with NO `data` keyword still gets the field
set — to the JSON text `"null"` — on both workflow and action packets. -/
theorem c6_additional_data_set_without_data_kwarg :
    convert_workflow_to_proto_additional_data (kwargs_data none) = some "null" ∧
    convert_action_to_proto_additional_data (kwargs_data none) = some "null" := by
  exact ⟨rfl, rfl⟩

/-! ### C3 / C7 — the concurrent workflow registry

The only writers of `self.workflows` are the pool tasks running
`execute_workflow_worker` (lines 438-439 insert under `self._lock`, lines
444-445 pop under `self._lock`); `__get_workflow_by_execution_id` and
`_get_current_workflow` only read.  Since each mutation runs under the
single lock, an interleaved execution is a sequence of atomic registry
operations, each performed by some pool thread under its own name. -/

/-- One atomic registry mutation, performed by the pool thread named
`threadName`: line 439 (`bindOp`) or line 445 (`releaseOp`). -/
inductive Op where
  | bindOp (threadName : String) (w : Wf)
  | releaseOp (threadName : String)
deriving DecidableEq, Repr

/-- Effect of one registry operation on the dict. -/
def step (d : Registry) : Op → Registry
  | Op.bindOp t w => dictSet d t w
  | Op.releaseOp t => dictRemove d t

/-- Run a sequence of registry operations from the state `d`. -/
def runFrom (d : Registry) (ops : List Op) : Registry := ops.foldl step d

/-- Run a sequence of registry operations from the initial empty dict
(`self.workflows = {}`, line 388). -/
def run (ops : List Op) : Registry := runFrom [] ops

/-- The names of the threads performing the inserts of a schedule. -/
def bindThreads (ops : List Op) : List String :=
  ops.filterMap (fun op =>
    match op with
    | Op.bindOp t _ => some t
    | Op.releaseOp _ => none)

theorem runFrom_cons (d : Registry) (op : Op) (ops : List Op) :
    runFrom d (op :: ops) = runFrom (step d op) ops := rfl

@[simp] theorem keys_nil : keys [] = [] := rfl

@[simp] theorem keys_cons (p : String × Wf) (d : Registry) :
    keys (p :: d) = p.1 :: keys d := rfl

@[simp] theorem execIds_nil : execIds [] = [] := rfl

@[simp] theorem execIds_cons (p : String × Wf) (d : Registry) :
    execIds (p :: d) = p.2.executionId :: execIds d := rfl

@[simp] theorem dictSet_nil (k : String) (v : Wf) : dictSet [] k v = [(k, v)] := rfl

theorem dictSet_cons (p : String × Wf) (d : Registry) (k : String) (v : Wf) :
    dictSet (p :: d) k v = if p.1 = k then (k, v) :: d else p :: dictSet d k v := rfl

/-- A key of the dict after an assignment is the assigned key or an old key. -/
theorem mem_keys_dictSet {k x : String} {v : Wf} :
    ∀ {d : Registry}, x ∈ keys (dictSet d k v) → x = k ∨ x ∈ keys d := by
  intro d
  induction d with
  | nil => intro hx; simp at hx; exact Or.inl hx
  | cons p rest ih =>
    intro hx
    rw [dictSet_cons] at hx
    by_cases hpk : p.1 = k
    · rw [if_pos hpk, keys_cons] at hx
      rcases List.mem_cons.mp hx with hx | hx
      · exact Or.inl hx
      · exact Or.inr (List.mem_cons.mpr (Or.inr hx))
    · rw [if_neg hpk, keys_cons] at hx
      rcases List.mem_cons.mp hx with hx | hx
      · exact Or.inr (List.mem_cons.mpr (Or.inl hx))
      · rcases ih hx with h | h
        · exact Or.inl h
        · exact Or.inr (List.mem_cons.mpr (Or.inr h))

/-- Python dict assignment keeps the keys distinct. -/
theorem keys_nodup_dictSet {k : String} {v : Wf} :
    ∀ {d : Registry}, (keys d).Nodup → (keys (dictSet d k v)).Nodup := by
  intro d
  induction d with
  | nil => intro _; simp
  | cons p rest ih =>
    intro h
    rw [keys_cons] at h
    rcases List.nodup_cons.mp h with ⟨hhead, hrest⟩
    rw [dictSet_cons]
    by_cases hpk : p.1 = k
    · rw [if_pos hpk, keys_cons]
      refine List.nodup_cons.mpr ⟨?_, hrest⟩
      rw [← hpk]
      exact hhead
    · rw [if_neg hpk, keys_cons]
      refine List.nodup_cons.mpr ⟨?_, ih hrest⟩
      intro hmem
      rcases mem_keys_dictSet hmem with h1 | h1
      · exact hpk h1
      · exact hhead h1

theorem keys_dictRemove_sublist (d : Registry) (k : String) :
    List.Sublist (keys (dictRemove d k)) (keys d) := by
  have h : List.Sublist (d.filter (fun p => !(p.1 == k))) d := List.filter_sublist d
  exact h.map (fun p => p.1)

/-- Invariant carried along a schedule: the registry keys stay distinct and
stay inside the set of pool thread names that perform the inserts. -/
theorem keys_runFrom_nodup_subset (pool : List String) :
    ∀ (ops : List Op) (d : Registry), (keys d).Nodup → keys d ⊆ pool →
      (∀ t ∈ bindThreads ops, t ∈ pool) →
      (keys (runFrom d ops)).Nodup ∧ keys (runFrom d ops) ⊆ pool := by
  intro ops
  induction ops with
  | nil => intro d h1 h2 _; exact ⟨h1, h2⟩
  | cons op rest ih =>
    intro d h1 h2 h3
    cases op with
    | bindOp t w =>
      rw [runFrom_cons]
      apply ih
      · exact keys_nodup_dictSet h1
      · intro x hx
        rcases mem_keys_dictSet hx with rfl | hx2
        · exact h3 x (by simp [bindThreads])
        · exact h2 hx2
      · intro u hu
        apply h3 u
        simp [bindThreads] at hu ⊢
        exact Or.inr hu
    | releaseOp t =>
      rw [runFrom_cons]
      apply ih
      · exact (keys_dictRemove_sublist d t).nodup h1
      · intro x hx
        exact h2 ((keys_dictRemove_sublist d t).subset hx)
      · intro u hu
        apply h3 u
        simpa [bindThreads] using hu

/-- C3: capacity invariant.  The registry is keyed by the executing pool
thread's name; the pool (`ThreadPoolExecutor(max_workers=capacity)`) has at
most `capacity` distinctly named threads.  For every schedule of registry
operations whose inserts are performed by pool threads, and at every point
in time (after any first `n` operations), the number of live registry
entries is at most `capacity`. -/
theorem c3_registry_capacity (capacity : Nat) (pool : List String) (ops : List Op)
    (_hpool : pool.Nodup) (hlen : pool.length ≤ capacity)
    (hthreads : ∀ t ∈ bindThreads ops, t ∈ pool) (n : Nat) :
    (run (ops.take n)).length ≤ capacity := by
  have htake : ∀ t ∈ bindThreads (ops.take n), t ∈ pool := by
    intro t ht
    exact hthreads t (((List.take_sublist n ops).filterMap _).subset ht)
  obtain ⟨hn, hs⟩ :=
    keys_runFrom_nodup_subset pool (ops.take n) [] (by simp) (by simp) htake
  have hsp : List.Subperm (keys (run (ops.take n))) pool := hn.subperm hs
  calc (run (ops.take n)).length
      = (keys (run (ops.take n))).length := (List.length_map _ _).symm
    _ ≤ pool.length := hsp.length_le
    _ ≤ capacity := hlen

/-- C3 witness: a concrete schedule on a pool of two threads — two binds,
a release, a rebind — never exceeds two live entries. -/
theorem c3_registry_capacity_witness :
    (run ([Op.bindOp "t0" ⟨1, 5⟩, Op.bindOp "t1" ⟨2, 6⟩, Op.releaseOp "t0",
        Op.bindOp "t0" ⟨3, 8⟩].take 4)).length ≤ 2 :=
  c3_registry_capacity 2 ["t0", "t1"] _ (by decide) (by decide) (by decide) 4

/-- A value of the dict after an assignment is the assigned value or an
old value (stated on the execution ids). -/
theorem mem_execIds_dictSet {k : String} {v : Wf} {x : Nat} :
    ∀ {d : Registry}, x ∈ execIds (dictSet d k v) →
      x = v.executionId ∨ x ∈ execIds d := by
  intro d
  induction d with
  | nil => intro hx; simp at hx; exact Or.inl hx
  | cons p rest ih =>
    intro hx
    rw [dictSet_cons] at hx
    by_cases hpk : p.1 = k
    · rw [if_pos hpk, execIds_cons] at hx
      rcases List.mem_cons.mp hx with hx | hx
      · exact Or.inl hx
      · exact Or.inr (List.mem_cons.mpr (Or.inr hx))
    · rw [if_neg hpk, execIds_cons] at hx
      rcases List.mem_cons.mp hx with hx | hx
      · exact Or.inr (List.mem_cons.mpr (Or.inl hx))
      · rcases ih hx with h | h
        · exact Or.inl h
        · exact Or.inr (List.mem_cons.mpr (Or.inr h))

/-- Assigning a workflow whose execution id is not yet live keeps the live
execution ids pairwise distinct. -/
theorem execIds_nodup_dictSet {k : String} {v : Wf} :
    ∀ {d : Registry}, (execIds d).Nodup → v.executionId ∉ execIds d →
      (execIds (dictSet d k v)).Nodup := by
  intro d
  induction d with
  | nil => intro _ _; simp
  | cons p rest ih =>
    intro h hf
    rw [execIds_cons] at h hf
    rcases List.nodup_cons.mp h with ⟨hhead, hrest⟩
    have hfv : v.executionId ≠ p.2.executionId := fun he =>
      hf (List.mem_cons.mpr (Or.inl he))
    have hfrest : v.executionId ∉ execIds rest := fun he =>
      hf (List.mem_cons.mpr (Or.inr he))
    rw [dictSet_cons]
    by_cases hpk : p.1 = k
    · rw [if_pos hpk, execIds_cons]
      exact List.nodup_cons.mpr ⟨hfrest, hrest⟩
    · rw [if_neg hpk, execIds_cons]
      refine List.nodup_cons.mpr ⟨?_, ih hrest hfrest⟩
      intro hmem
      rcases mem_execIds_dictSet hmem with h1 | h1
      · exact hfv h1.symm
      · exact hhead h1

theorem execIds_dictRemove_sublist (d : Registry) (k : String) :
    List.Sublist (execIds (dictRemove d k)) (execIds d) := by
  have h : List.Sublist (d.filter (fun p => !(p.1 == k))) d := List.filter_sublist d
  exact h.map (fun p => p.2.executionId)

/-- The schedules in which every dispatched request is bound with an
execution id that is not live in the registry at bind time — the
environmental guarantee the spec states for execution ids ("unique per
attempt").  Computed relative to the starting registry `d`. -/
def freshBinds : Registry → List Op → Bool
  | _, [] => true
  | d, Op.bindOp t w :: rest =>
    !(decide (w.executionId ∈ execIds d)) && freshBinds (dictSet d t w) rest
  | d, Op.releaseOp t :: rest => freshBinds (dictRemove d t) rest

theorem freshBinds_append :
    ∀ (l1 l2 : List Op) (d : Registry),
      freshBinds d (l1 ++ l2) = true → freshBinds d l1 = true := by
  intro l1
  induction l1 with
  | nil => intro l2 d _; rfl
  | cons op rest ih =>
    intro l2 d h
    cases op with
    | bindOp t w =>
      rw [List.cons_append] at h
      rw [freshBinds] at h ⊢
      rw [Bool.and_eq_true] at h ⊢
      exact ⟨h.1, ih l2 _ h.2⟩
    | releaseOp t =>
      rw [List.cons_append] at h
      rw [freshBinds] at h ⊢
      exact ih l2 _ h

/-- Running a fresh-bind schedule from a registry with pairwise-distinct
live execution ids keeps them pairwise distinct. -/
theorem execIds_nodup_runFrom :
    ∀ (ops : List Op) (d : Registry), (execIds d).Nodup →
      freshBinds d ops = true → (execIds (runFrom d ops)).Nodup := by
  intro ops
  induction ops with
  | nil => intro d h _; exact h
  | cons op rest ih =>
    intro d h hf
    cases op with
    | bindOp t w =>
      rw [freshBinds, Bool.and_eq_true] at hf
      have hfresh : w.executionId ∉ execIds d := by
        have h1 := hf.1
        rw [Bool.not_eq_true', decide_eq_false_iff_not] at h1
        exact h1
      rw [runFrom_cons]
      exact ih (dictSet d t w) (execIds_nodup_dictSet h hfresh) hf.2
    | releaseOp t =>
      rw [freshBinds] at hf
      rw [runFrom_cons]
      exact ih (dictRemove d t) ((execIds_dictRemove_sublist d t).nodup h) hf

/-- C7 counterexample: the worker does nothing to enforce execution-id
uniqueness — it trusts the queue.  If two requests carrying the same
execution id `7` are dispatched to the two pool threads (duplicate or
forged frames on the shared request queue), both are bound and the live
registry holds two entries with the same `workflow_execution_id`. -/
theorem c7_execid_uniqueness_counterexample :
    ¬ (execIds (run [Op.bindOp "t0" ⟨1, 7⟩, Op.bindOp "t1" ⟨2, 7⟩])).Nodup := by
  decide

/-- C7 (amended): provided every request is bound with an execution id
that is not already live in the registry — the upstream guarantee that
execution ids are unique per attempt — no two live registry entries share
a `workflow_execution_id`, at every point of every schedule. -/
theorem c7_execid_uniqueness_amended (ops : List Op)
    (h : freshBinds [] ops = true) (n : Nat) :
    (execIds (run (ops.take n))).Nodup := by
  have h1 : freshBinds [] (ops.take n) = true := by
    have h2 := freshBinds_append (ops.take n) (ops.drop n) []
    rw [List.take_append_drop] at h2
    exact h2 h
  exact execIds_nodup_runFrom (ops.take n) [] (by simp) h1

/-- C7 witness: a schedule that binds two distinct execution ids, releases
one, and rebinds its id after the release (the resume pattern) keeps the
live execution ids distinct at its end. -/
theorem c7_execid_uniqueness_amended_witness :
    (execIds (run ([Op.bindOp "t0" ⟨1, 5⟩, Op.bindOp "t1" ⟨2, 6⟩,
        Op.releaseOp "t0", Op.bindOp "t0" ⟨3, 5⟩].take 4))).Nodup :=
  c7_execid_uniqueness_amended _ (by decide) 4

/-! ### C8 — workflow-control dispatch
(`Worker._handle_workflow_control_communication`, lines 456-462, and
`Worker.__get_workflow_by_execution_id`, lines 487-492). -/

/-- The two workflow-control kinds (`WorkflowCommunicationMessageType`). -/
inductive WorkflowCommunicationMessageType where
  | pause
  | abort
deriving DecidableEq, Repr

/-- What the control handler did: called `workflow.pause()` on a handle,
called `workflow.abort()` on a handle, or nothing. -/
inductive ControlAction where
  | pauseCalled (w : Wf)
  | abortCalled (w : Wf)
  | noAction
deriving DecidableEq, Repr

/-- `Worker.__get_workflow_by_execution_id`: scan the registry values
under the lock and return the first whose `get_execution_id()` matches. -/
def get_workflow_by_execution_id (d : Registry) (eid : Nat) : Option Wf :=
  (d.find? (fun p => p.2.executionId == eid)).map (fun p => p.2)

/-- `Worker._handle_workflow_control_communication`: look the workflow up
by execution id; call `pause()`/`abort()` on it if found, else do nothing.
The registry is returned unchanged, as the handler never mutates it. -/
def handle_workflow_control (d : Registry)
    (msgType : WorkflowCommunicationMessageType) (eid : Nat) :
    ControlAction × Registry :=
  match get_workflow_by_execution_id d eid with
  | some w =>
    match msgType with
    | WorkflowCommunicationMessageType.pause => (ControlAction.pauseCalled w, d)
    | WorkflowCommunicationMessageType.abort => (ControlAction.abortCalled w, d)
  | none => (ControlAction.noAction, d)

/-- C8: if the registry has (exactly) one entry holding the message's
execution id, the handler calls `pause()` (kind Pause) or `abort()` (kind
Abort) on exactly that workflow handle; if no entry matches, the message
is silently ignored — no action and no state change. -/
theorem c8_workflow_control (d : Registry) (eid : Nat) :
    (∀ w : Wf, (∃ t, (t, w) ∈ d) → w.executionId = eid →
        (∀ p ∈ d, p.2.executionId = eid → p.2 = w) →
        handle_workflow_control d WorkflowCommunicationMessageType.pause eid
          = (ControlAction.pauseCalled w, d) ∧
        handle_workflow_control d WorkflowCommunicationMessageType.abort eid
          = (ControlAction.abortCalled w, d)) ∧
    ((∀ p ∈ d, p.2.executionId ≠ eid) →
        handle_workflow_control d WorkflowCommunicationMessageType.pause eid
          = (ControlAction.noAction, d) ∧
        handle_workflow_control d WorkflowCommunicationMessageType.abort eid
          = (ControlAction.noAction, d)) := by
  constructor
  · rintro w ⟨t, hmem⟩ heid huniq
    have hex : (d.find? (fun p => p.2.executionId == eid)).isSome := by
      rw [List.find?_isSome]
      exact ⟨(t, w), hmem, by simp [heid]⟩
    obtain ⟨q, hq⟩ := Option.isSome_iff_exists.mp hex
    have hqd : q ∈ d := List.mem_of_find?_eq_some hq
    have hqe : q.2.executionId = eid := by
      have h1 := List.find?_some hq
      simpa using h1
    have hqw : q.2 = w := huniq q hqd hqe
    constructor <;>
      simp [handle_workflow_control, get_workflow_by_execution_id, hq, hqw]
  · intro hall
    have hnone : d.find? (fun p => p.2.executionId == eid) = none := by
      rw [List.find?_eq_none]
      intro p hp
      simpa using hall p hp
    constructor <;>
      simp [handle_workflow_control, get_workflow_by_execution_id, hnone]

/-- C8 witness: with workflows of execution ids 5 and 6 live, a Pause for
id 5 pauses exactly that handle, and an Abort for the absent id 9 is
silently ignored. -/
theorem c8_workflow_control_witness :
    handle_workflow_control [("t0", ⟨1, 5⟩), ("t1", ⟨2, 6⟩)]
        WorkflowCommunicationMessageType.pause 5
      = (ControlAction.pauseCalled ⟨1, 5⟩, [("t0", ⟨1, 5⟩), ("t1", ⟨2, 6⟩)]) ∧
    handle_workflow_control [("t0", ⟨1, 5⟩), ("t1", ⟨2, 6⟩)]
        WorkflowCommunicationMessageType.abort 9
      = (ControlAction.noAction, [("t0", ⟨1, 5⟩), ("t1", ⟨2, 6⟩)]) :=
  ⟨((c8_workflow_control [("t0", ⟨1, 5⟩), ("t1", ⟨2, 6⟩)] 5).1 ⟨1, 5⟩
      ⟨"t0", by decide⟩ rfl (by decide)).1,
   ((c8_workflow_control [("t0", ⟨1, 5⟩), ("t1", ⟨2, 6⟩)] 9).2 (by decide)).2⟩

/-! ### C9 — argument encoding (`add_arguments_to_action_proto`, lines
119-132).  A non-string Python value is opaque to the worker; what matters
is whether `json.dumps` succeeds on it (and with what text) and what its
`str()` form is, so a scalar is either a string or an opaque value
carrying those two observations. -/

/-- A Python value sitting in an `Argument` field. -/
inductive PyScalar where
  | pstr (s : String)
  | pother (jsonEnc : Option String) (strForm : String)
deriving DecidableEq, Repr

/-- An `Argument` row: name plus the three optional fields the loop reads
(`value`, `reference`, `selection`); `none` is Python `None`. -/
structure PyArgument where
  name : String
  value : Option PyScalar
  reference : Option PyScalar
  selection : Option PyScalar
deriving DecidableEq, Repr

/-- The wire form of one argument on the action packet (`none` = field
left unset). -/
structure ProtoArgument where
  name : String
  value : Option String
  reference : Option String
  selection : Option String
deriving DecidableEq, Repr

/-- Lines 126-132: a string passes through; otherwise `json.dumps`, and on
`ValueError`/`TypeError` fall back to `str(val)`. -/
def encodeArgField : PyScalar → String
  | PyScalar.pstr s => s
  | PyScalar.pother j sf => j.getD sf

/-- Lines 124-132 for one field: set iff the Python value is not `None`. -/
def setArgField (v : Option PyScalar) : Option String := v.map encodeArgField

/-- `add_arguments_to_action_proto`: one proto argument is added per
argument of the sender, unconditionally (`arg = ...arguments.add()` runs
before any field is inspected). -/
def add_arguments_to_action_proto (args : List PyArgument) : List ProtoArgument :=
  args.map (fun a =>
    ⟨a.name, setArgField a.value, setArgField a.reference, setArgField a.selection⟩)

/-- C9: no argument is ever dropped (one packet argument per sender
argument, carrying its name and its three encoded fields), a string field
passes through unchanged, a non-string field is JSON-encoded, and a field
whose JSON encoding fails falls back to the string form. -/
theorem c9_arguments (args : List PyArgument) :
    (add_arguments_to_action_proto args).length = args.length ∧
    (∀ a ∈ args,
      ProtoArgument.mk a.name (setArgField a.value) (setArgField a.reference)
          (setArgField a.selection) ∈ add_arguments_to_action_proto args) ∧
    (∀ s, encodeArgField (PyScalar.pstr s) = s) ∧
    (∀ j sf, encodeArgField (PyScalar.pother (some j) sf) = j) ∧
    (∀ sf, encodeArgField (PyScalar.pother none sf) = sf) := by
  refine ⟨?_, ?_, fun s => rfl, fun j sf => rfl, fun sf => rfl⟩
  · simp [add_arguments_to_action_proto]
  · intro a ha
    exact List.mem_map_of_mem _ ha

/-- C9 witness: an argument with a string value, a JSON-encodable
reference and a selection whose encoding fails is kept whole on the
packet, with the three fields encoded as the claim states. -/
theorem c9_arguments_witness :
    ProtoArgument.mk "x" (some "hello") (some "42") (some "objrepr") ∈
      add_arguments_to_action_proto
        [PyArgument.mk "x" (some (PyScalar.pstr "hello"))
          (some (PyScalar.pother (some "42") "ref"))
          (some (PyScalar.pother none "objrepr"))] :=
  (c9_arguments _).2.1 _ (List.mem_singleton_self _)

/-! ### C10 — resolving the emitting workflow by thread name
(`Worker.on_data_sent`, lines 472-481, and `Worker._get_current_workflow`,
lines 483-485). -/

/-- A Python lookup error. -/
inductive PyLookupError where
  | keyError
deriving DecidableEq, Repr

/-- Python dict indexing `d[k]`: the value, or a raised `KeyError`. -/
def dictGetitem (d : Registry) (k : String) : Except PyLookupError Wf :=
  match d.find? (fun p => p.1 == k) with
  | some p => Except.ok p.2
  | none => Except.error PyLookupError.keyError

/-- `Worker._get_current_workflow`:
`return self.workflows[threading.currentThread().name]` under the lock. -/
def get_current_workflow (d : Registry) (threadName : String) :
    Except PyLookupError Wf :=
  dictGetitem d threadName

/-- `Worker.on_data_sent`: resolve the current thread's workflow, then
forward to `WorkflowResultsHandler.handle_event`; a `KeyError` from the
lookup propagates. -/
def on_data_sent (d : Registry) (threadName : String) (event : WEvent)
    (dbFails caseLogFails sendFails : Bool) :
    Except PyLookupError (Wf × HandleEventOutcome) :=
  match get_current_workflow d threadName with
  | Except.error e => Except.error e
  | Except.ok w => Except.ok (w, handle_event event dbFails caseLogFails sendFails)

/-- Whether a Python call returned (rather than raised). -/
def exceptOk {ε α : Type} : Except ε α → Bool
  | Except.ok _ => true
  | Except.error _ => false

/-- C10: `on_data_sent` succeeds exactly when the signalling thread has an
entry in the registry; on any other thread (or after the entry was
popped) it raises `KeyError` instead of returning a workflow, and when
the thread is bound it hands exactly the bound workflow to the results
handler. -/
theorem c10_thread_binding (d : Registry) (t : String) (event : WEvent)
    (dbFails caseLogFails sendFails : Bool) :
    (exceptOk (on_data_sent d t event dbFails caseLogFails sendFails) = true ↔
      ∃ p ∈ d, p.1 = t) ∧
    ((∀ p ∈ d, p.1 ≠ t) →
      on_data_sent d t event dbFails caseLogFails sendFails
        = Except.error PyLookupError.keyError) ∧
    (∀ w, get_current_workflow d t = Except.ok w →
      on_data_sent d t event dbFails caseLogFails sendFails
        = Except.ok (w, handle_event event dbFails caseLogFails sendFails)) := by
  cases hfind : d.find? (fun p => p.1 == t) with
  | some q =>
    have hqd : q ∈ d := List.mem_of_find?_eq_some hfind
    have hqt : q.1 = t := by
      have h1 := List.find?_some hfind
      simpa using h1
    refine ⟨?_, ?_, ?_⟩
    · constructor
      · intro _
        exact ⟨q, hqd, hqt⟩
      · intro _
        simp [on_data_sent, get_current_workflow, dictGetitem, hfind, exceptOk]
    · intro hall
      exact absurd hqt (hall q hqd)
    · intro w hw
      have hqw : q.2 = w := by
        simp [get_current_workflow, dictGetitem, hfind] at hw
        exact hw
      simp [on_data_sent, get_current_workflow, dictGetitem, hfind, hqw]
  | none =>
    have hall : ∀ p ∈ d, ¬((fun p : String × Wf => p.1 == t) p = true) :=
      List.find?_eq_none.mp hfind
    refine ⟨?_, ?_, ?_⟩
    · constructor
      · intro hok
        exfalso
        simp [on_data_sent, get_current_workflow, dictGetitem, hfind, exceptOk] at hok
      · rintro ⟨p, hp, hpt⟩
        exact absurd (by simp [hpt]) (hall p hp)
    · intro _
      simp [on_data_sent, get_current_workflow, dictGetitem, hfind]
    · intro w hw
      simp [get_current_workflow, dictGetitem, hfind] at hw

/-- C10 witness: on the thread that owns the only registry entry, the
signal resolves to exactly the bound workflow and is forwarded. -/
theorem c10_thread_binding_witness :
    on_data_sent [("t0", ⟨1, 5⟩)] "t0" WEvent.otherEvent false false false
      = Except.ok (⟨1, 5⟩, handle_event WEvent.otherEvent false false false) :=
  (c10_thread_binding [("t0", ⟨1, 5⟩)] "t0" WEvent.otherEvent false false false).2.2
    ⟨1, 5⟩ rfl
